import Mathlib

/-!
# PDUProgrammer: configure → commit → verify → signal

A shallow embedding of `PDUProgrammer/main.cpp`.

* `float` is IEEE-754 binary32: a value is a NaN, a signed infinity or a finite rational, and every
  arithmetic result is rounded to nearest, ties to even (`F32.ofRat`).
* A run of `main` is the sequence of hardware and driver calls it performs: a finite list of calls
  followed by the body of the loop in which the program stays for ever (`Run`).
* Console output (`printf`) is not part of the embedding.
-/

namespace PDUProgrammer

/-! ## Binary floating point -/

/-- Nearest integer to `r`; a tie goes to the even neighbour. -/
def roundHalfEven (r : ℚ) : ℤ :=
  let f := ⌊r⌋
  let d := r - f
  if d < 1 / 2 then f else if 1 / 2 < d then f + 1 else if f % 2 = 0 then f else f + 1

/-- Exponent of the unit in the last place at magnitude `x`, for a binary format with `prec`
significand bits whose smallest normal exponent is `emin`. -/
def quantum (prec : ℕ) (emin : ℤ) (x : ℚ) : ℤ :=
  max (Int.log 2 x) emin - ((prec : ℤ) - 1)

/-- Magnitude `x ≥ 0` rounded to the nearest multiple of its unit in the last place. -/
def roundMag (prec : ℕ) (emin : ℤ) (x : ℚ) : ℚ :=
  roundHalfEven (x / 2 ^ quantum prec emin x) * 2 ^ quantum prec emin x

/-- Round to nearest, ties to even, in sign-magnitude form (exponent range unbounded above). -/
def roundNearestEven (prec : ℕ) (emin : ℤ) (x : ℚ) : ℚ :=
  if x < 0 then -roundMag prec emin (-x) else roundMag prec emin x

/-- Values of the C++ type `float` (IEEE-754 binary32). A finite value is given by the rational
it denotes; the two zeros, which subtraction, `abs` and `<` cannot tell apart, are one value.
The finite values a `float` can hold are those satisfying `F32.isBinary32`. -/
inductive F32 where
  | nan
  | inf (neg : Bool)
  | fin (val : ℚ)
  deriving DecidableEq

namespace F32

/-- The binary32 value of a real number: round to nearest even, overflow to infinity. -/
def ofRat (x : ℚ) : F32 :=
  let y := roundNearestEven 24 (-126) x
  if 2 ^ 128 ≤ |y| then inf (decide (x < 0)) else fin y

/-- A decimal literal without suffix has type `double`; initialising a `float` from it rounds
twice, to binary64 and then to binary32. -/
def ofLiteral (x : ℚ) : F32 :=
  ofRat (roundNearestEven 53 (-1022) x)

/-- Whether the value is one a `float` can hold. -/
def isBinary32 : F32 → Bool
  | fin q => decide (roundNearestEven 24 (-126) q = q ∧ |q| < 2 ^ 128)
  | _ => true

/-- The operator `-` on `float`. -/
def sub : F32 → F32 → F32
  | nan, _ => nan
  | _, nan => nan
  | inf s, inf t => if s = t then nan else inf s
  | inf s, fin _ => inf s
  | fin _, inf t => inf (!t)
  | fin a, fin b => ofRat (a - b)

/-- The `float` overload of `abs`: main.cpp is C++, where `<stdlib.h>` declares
`float abs(float)` next to `int abs(int)`, and overload resolution picks it for a `float`
argument; nothing is truncated. -/
def abs : F32 → F32
  | nan => nan
  | inf _ => inf false
  | fin q => fin |q|

/-- The operator `<` on `float`; every comparison with a NaN is false. -/
def lt : F32 → F32 → Bool
  | nan, _ => false
  | _, nan => false
  | inf s, inf t => s && !t
  | inf s, fin _ => s
  | fin _, inf t => !t
  | fin a, fin b => decide (a < b)

end F32

/-- The default value `0.01` of the parameter `tolerance` of `floatsAreClose`. -/
def defaultTolerance : F32 := F32.ofLiteral (1 / 100)

/-- Source: `bool floatsAreClose(float val1, float val2, float tolerance = 0.01)`,
`return abs(val1 - val2) < tolerance;`. -/
def floatsAreClose (val1 val2 : F32) (tolerance : F32 := defaultTolerance) : Bool :=
  F32.lt (F32.abs (F32.sub val1 val2)) tolerance

/-! ## Calls performed by `main` -/

/-- Source: `#define STUSB4500_I2C_ADDR 0x28`. -/
def STUSB4500_I2C_ADDR : Nat := 0x28
/-- Source: `#define STUSB4500_SDA_PIN 14`. -/
def STUSB4500_SDA_PIN : Nat := 14
/-- Source: `#define STUSB4500_SCL_PIN 15`. -/
def STUSB4500_SCL_PIN : Nat := 15
/-- Source: `#define STATUS_LED_PIN 25`. -/
def STATUS_LED_PIN : Nat := 25

/-- One call of `main` into the Pico SDK or into the STUSB4500 driver object `usb`, with its
arguments and, for the calls whose result the program uses, the value returned. -/
inductive Action where
  | stdio_init_all
  | stdio_usb_connected (result : Bool)
  | sleep_ms (ms : Nat)
  | gpio_init (pin : Nat)
  | gpio_set_dir (pin : Nat) (out : Bool)
  | gpio_put (pin : Nat) (value : Bool)
  | i2c_init (baudrate : Nat)
  | gpio_set_function_i2c (pin : Nat)
  | gpio_pull_up (pin : Nat)
  | begin (address : Nat) (result : Bool)
  | setPdoNumber (n : Nat)
  | setVoltage (pdo : Nat) (volts : F32)
  | setCurrent (pdo : Nat) (amps : F32)
  | setLowerVoltageLimit (pdo : Nat) (pct : Nat)
  | setUpperVoltageLimit (pdo : Nat) (pct : Nat)
  | setExternalPower (value : Bool)
  | setUsbCommCapable (value : Bool)
  | setConfigOkGpio (value : Nat)
  | setPowerAbove5vOnly (value : Bool)
  | write
  | softReset
  | getPdoNumber (result : Nat)
  | getVoltage (pdo : Nat) (result : F32)
  | getCurrent (pdo : Nat) (result : F32)
  | watchdog_reboot (pc sp delay_ms : Nat)
  deriving DecidableEq

namespace Action

/-- The driver calls that change a field of the configuration. -/
def isSetter : Action → Bool
  | setPdoNumber _ | setVoltage _ _ | setCurrent _ _ | setLowerVoltageLimit _ _
  | setUpperVoltageLimit _ _ | setExternalPower _ | setUsbCommCapable _
  | setConfigOkGpio _ | setPowerAbove5vOnly _ => true
  | _ => false

/-- The driver calls that read a field back. -/
def isGetter : Action → Bool
  | getPdoNumber _ | getVoltage _ _ | getCurrent _ _ => true
  | _ => false

/-- The system restart. -/
def isReboot : Action → Bool
  | watchdog_reboot _ _ _ => true
  | _ => false

/-- Any call into the driver after `begin`: setter, commit, reset or getter. -/
def isDriverCall (a : Action) : Bool :=
  a.isSetter || a.isGetter || a == write || a == softReset

/-- Milliseconds the call waits. -/
def delay : Action → Nat
  | sleep_ms ms => ms
  | _ => 0

end Action

/-- Total time slept in a sequence of calls. -/
def totalDelay (l : List Action) : Nat := (l.map Action.delay).sum

/-- The profile fields `main` handles: one field per `set…` variable of the source. -/
structure Profile where
  pdoNum : Nat
  pdo1Current : F32
  pdo1Ovlo : Nat
  pdo2Voltage : F32
  pdo2Current : F32
  pdo2Uvlo : Nat
  pdo2Ovlo : Nat
  pdo3Voltage : F32
  pdo3Current : F32
  pdo3Uvlo : Nat
  pdo3Ovlo : Nat
  extPower : Bool
  usbComm : Bool
  configOk : Nat
  pwrAbove5 : Bool
  deriving DecidableEq

/-- Source: `uint8_t setPdoNum = 3;`. -/
def setPdoNum : Nat := 3
/-- Source: `float setPdo1Current = 0.5;`. -/
def setPdo1Current : F32 := F32.ofLiteral (1 / 2)
/-- Source: `uint8_t setPdo1Ovlo = 20;`. -/
def setPdo1Ovlo : Nat := 20
/-- Source: `float setPdo2Voltage = 20.0;`. -/
def setPdo2Voltage : F32 := F32.ofLiteral 20
/-- Source: `float setPdo2Current = 4.5;`. -/
def setPdo2Current : F32 := F32.ofLiteral (9 / 2)
/-- Source: `uint8_t setPdo2Uvlo = 10;`. -/
def setPdo2Uvlo : Nat := 10
/-- Source: `uint8_t setPdo2Ovlo = 20;`. -/
def setPdo2Ovlo : Nat := 20
/-- Source: `float setPdo3Voltage = 20.0;`. -/
def setPdo3Voltage : F32 := F32.ofLiteral 20
/-- Source: `float setPdo3Current = 5.0;`. -/
def setPdo3Current : F32 := F32.ofLiteral 5
/-- Source: `uint8_t setPdo3Uvlo = 20;`. -/
def setPdo3Uvlo : Nat := 20
/-- Source: `uint8_t setPdo3Ovlo = 20;`. -/
def setPdo3Ovlo : Nat := 20
/-- Source: `bool setExtPower = false;`. -/
def setExtPower : Bool := false
/-- Source: `bool setUsbComm = true;`. -/
def setUsbComm : Bool := true
/-- Source: `uint8_t setConfigOk = 2;`. -/
def setConfigOk : Nat := 2
/-- Source: `bool setPwrAbove5 = true;`. -/
def setPwrAbove5 : Bool := true

/-- The compiled-in desired profile (main.cpp lines 84-88). -/
def desired : Profile where
  pdoNum := setPdoNum
  pdo1Current := setPdo1Current
  pdo1Ovlo := setPdo1Ovlo
  pdo2Voltage := setPdo2Voltage
  pdo2Current := setPdo2Current
  pdo2Uvlo := setPdo2Uvlo
  pdo2Ovlo := setPdo2Ovlo
  pdo3Voltage := setPdo3Voltage
  pdo3Current := setPdo3Current
  pdo3Uvlo := setPdo3Uvlo
  pdo3Ovlo := setPdo3Ovlo
  extPower := setExtPower
  usbComm := setUsbComm
  configOk := setConfigOk
  pwrAbove5 := setPwrAbove5

/-- What the surroundings of one run of `main` decide. -/
structure Env where
  /-- How often `stdio_usb_connected()` answers false before it answers true; `none` when no
  host ever opens the USB console. -/
  usbConnectedAfter : Option Nat
  /-- The result of `usb.begin(STUSB4500_I2C_ADDR, STUSB4500_I2C_INSTANCE)`. -/
  beginResult : Bool
  /-- The state of the controller after `softReset`, as the driver getters report it. The
  PDO number is the `uint8_t` the driver returns. -/
  controller : Profile

/-- Where a run of `main` ends. -/
inductive Halt where
  /-- The loop `while (!stdio_usb_connected())` at the top of `main`. -/
  | waitForConsole
  /-- The loop of `enterErrorState_InitFail`. -/
  | initFail
  /-- The loop of `enterErrorState_VerifyFail`. -/
  | verifyFail
  /-- The final `while (true);` after `watchdog_reboot`. -/
  | success
  deriving DecidableEq

/-- A run of `main`: the calls performed once, in order, then the body of the loop the program
repeats without end (empty for a loop with an empty body). -/
structure Run where
  actions : List Action
  forever : List Action
  halt : Halt

namespace Run

/-- The `i`-th call of the run, counted from 0; `none` once the program only spins. -/
def nth (r : Run) (i : Nat) : Option Action :=
  if i < r.actions.length then r.actions[i]?
  else r.forever[(i - r.actions.length) % r.forever.length]?

end Run

/-- Source: the body of `while (1)` in `enterErrorState_InitFail` (100 ms on, 100 ms off). -/
def enterErrorState_InitFail : List Action :=
  [.gpio_put STATUS_LED_PIN true, .sleep_ms 100, .gpio_put STATUS_LED_PIN false, .sleep_ms 100]

/-- Source: the body of `while (1)` in `enterErrorState_VerifyFail` (1000 ms on, 1000 ms off). -/
def enterErrorState_VerifyFail : List Action :=
  [.gpio_put STATUS_LED_PIN true, .sleep_ms 1000, .gpio_put STATUS_LED_PIN false, .sleep_ms 1000]

/-- Source: `while (!stdio_usb_connected()) { sleep_ms(100); }` when the console connects
after `polls` negative answers. -/
def waitConnected : Nat → List Action
  | 0 => [.stdio_usb_connected true]
  | polls + 1 => .stdio_usb_connected false :: .sleep_ms 100 :: waitConnected polls

/-- Source: main.cpp lines 47-68, console and pin bring-up, up to the call of `usb.begin`. -/
def bringUp (polls : Nat) : List Action :=
  .stdio_init_all :: waitConnected polls ++
  [.gpio_init STATUS_LED_PIN, .gpio_set_dir STATUS_LED_PIN true, .gpio_put STATUS_LED_PIN false,
   .sleep_ms 1500,
   .i2c_init (100 * 1000),
   .gpio_set_function_i2c STUSB4500_SDA_PIN, .gpio_set_function_i2c STUSB4500_SCL_PIN,
   .gpio_pull_up STUSB4500_SDA_PIN, .gpio_pull_up STUSB4500_SCL_PIN]

/-- Source: main.cpp lines 90-94, the setter calls. -/
def configure : List Action :=
  [.setPdoNumber setPdoNum,
   .setCurrent 1 setPdo1Current, .setUpperVoltageLimit 1 setPdo1Ovlo,
   .setVoltage 2 setPdo2Voltage, .setCurrent 2 setPdo2Current,
   .setLowerVoltageLimit 2 setPdo2Uvlo, .setUpperVoltageLimit 2 setPdo2Ovlo,
   .setVoltage 3 setPdo3Voltage, .setCurrent 3 setPdo3Current,
   .setLowerVoltageLimit 3 setPdo3Uvlo, .setUpperVoltageLimit 3 setPdo3Ovlo,
   .setExternalPower setExtPower, .setUsbCommCapable setUsbComm,
   .setConfigOkGpio setConfigOk, .setPowerAbove5vOnly setPwrAbove5]

/-- Source: main.cpp lines 102-109, write to NVM and reset. -/
def commit : List Action :=
  [.write, .sleep_ms 50, .softReset, .sleep_ms 750]

/-- Source: main.cpp lines 118-175. The getter calls in program order, and the final value of
`verificationFailed`; `usb` is the controller state the getters report. -/
def verify (usb : Profile) : List Action × Bool :=
  let verificationFailed := false
  let readPdoNum := usb.pdoNum
  let verificationFailed := if readPdoNum != setPdoNum then true else verificationFailed
  let readPdo2Voltage := usb.pdo2Voltage
  let readPdo2Current := usb.pdo2Current
  let verificationFailed :=
    if !floatsAreClose readPdo2Voltage setPdo2Voltage then true else verificationFailed
  let verificationFailed :=
    if !floatsAreClose readPdo2Current setPdo2Current then true else verificationFailed
  let readPdo3Voltage := usb.pdo3Voltage
  let readPdo3Current := usb.pdo3Current
  let verificationFailed :=
    if !floatsAreClose readPdo3Voltage setPdo3Voltage then true else verificationFailed
  let verificationFailed :=
    if !floatsAreClose readPdo3Current setPdo3Current then true else verificationFailed
  ([.getPdoNumber readPdoNum,
    .getVoltage 2 readPdo2Voltage, .getCurrent 2 readPdo2Current,
    .getVoltage 3 readPdo3Voltage, .getCurrent 3 readPdo3Current],
   verificationFailed)

/-- Source: main.cpp lines 189-203, the success path after verification. -/
def successTail : List Action :=
  [.gpio_put STATUS_LED_PIN true, .sleep_ms 10000, .sleep_ms 100, .watchdog_reboot 0 0 0]

/-- Source: `int main()`. -/
def main (env : Env) : Run :=
  match env.usbConnectedAfter with
  | none =>
    { actions := [.stdio_init_all]
      forever := [.stdio_usb_connected false, .sleep_ms 100]
      halt := .waitForConsole }
  | some polls =>
    let trace := bringUp polls ++ [.begin STUSB4500_I2C_ADDR env.beginResult]
    if !env.beginResult then
      { actions := trace, forever := enterErrorState_InitFail, halt := .initFail }
    else
      let trace := trace ++ configure ++ commit
      let (reads, verificationFailed) := verify env.controller
      let trace := trace ++ reads
      if verificationFailed then
        { actions := trace, forever := enterErrorState_VerifyFail, halt := .verifyFail }
      else
        { actions := trace ++ successTail, forever := [], halt := .success }

/-! ## Rounding -/

theorem floor_le_roundHalfEven (r : ℚ) : ⌊r⌋ ≤ roundHalfEven r := by
  unfold roundHalfEven
  simp only
  split_ifs <;> omega

theorem roundHalfEven_le_floor_add_one (r : ℚ) : roundHalfEven r ≤ ⌊r⌋ + 1 := by
  unfold roundHalfEven
  simp only
  split_ifs <;> omega

theorem roundHalfEven_nonneg {r : ℚ} (h : 0 ≤ r) : 0 ≤ roundHalfEven r :=
  le_trans (Int.floor_nonneg.mpr h) (floor_le_roundHalfEven r)

/-- Below an even integer `M`, rounding stays below `M` exactly up to the midpoint `M - 1/2`. -/
theorem roundHalfEven_lt_even (r : ℚ) (M : ℤ) (hM : M % 2 = 0) :
    roundHalfEven r < M ↔ r < M - 1/2 := by
  have hfl : (⌊r⌋ : ℚ) ≤ r := Int.floor_le r
  have hlt : r < ⌊r⌋ + 1 := Int.lt_floor_add_one r
  rcases lt_trichotomy (⌊r⌋ + 1) M with h | h | h
  · -- floor ≤ M - 2
    have h1 : roundHalfEven r < M := lt_of_le_of_lt (roundHalfEven_le_floor_add_one r) h
    have h2 : ((⌊r⌋ + 1 : ℤ) : ℚ) ≤ (M : ℚ) - 1 := by
      have : ⌊r⌋ + 1 ≤ M - 1 := by omega
      exact_mod_cast this
    push_cast at h2
    constructor
    · intro _; linarith
    · intro _; exact h1
  · -- floor = M - 1, odd
    have hf : ⌊r⌋ = M - 1 := by omega
    have hodd : ⌊r⌋ % 2 ≠ 0 := by omega
    have hfq : (⌊r⌋ : ℚ) = M - 1 := by rw [hf]; push_cast; ring
    unfold roundHalfEven
    simp only
    split_ifs with c1 c2
    · constructor
      · intro _; linarith
      · intro _; omega
    · constructor
      · intro h; omega
      · intro h; linarith
    · constructor
      · intro h; omega
      · intro h; linarith
  · -- floor ≥ M
    have h1 : M ≤ roundHalfEven r := le_trans (by omega) (floor_le_roundHalfEven r)
    have h2 : (M : ℚ) ≤ ⌊r⌋ := by
      have : M ≤ ⌊r⌋ := by omega
      exact_mod_cast this
    constructor
    · intro h; omega
    · intro h; linarith

theorem two_zpow_log_le {x : ℚ} (hx : 0 < x) : (2:ℚ) ^ Int.log 2 x ≤ x := by
  have h := Int.zpow_log_le_self (b := 2) (r := x) (by norm_num) hx
  simpa using h

theorem log_lt_of_lt_two_zpow {x : ℚ} (hx : 0 < x) {k : ℤ} (h : x < (2:ℚ) ^ k) :
    Int.log 2 x < k := by
  have := (Int.lt_zpow_iff_log_lt (b := 2) (by norm_num) (x := k) hx).mp (by simpa using h)
  exact this

theorem le_log_of_two_zpow_le {x : ℚ} (hx : 0 < x) {k : ℤ} (h : (2:ℚ) ^ k ≤ x) :
    k ≤ Int.log 2 x := by
  have := (Int.zpow_le_iff_le_log (b := 2) (by norm_num) (x := k) hx).mp (by simpa using h)
  exact this

theorem roundMag_zero (prec : ℕ) (emin : ℤ) : roundMag prec emin 0 = 0 := by
  simp [roundMag, roundHalfEven]

theorem roundMag_nonneg (prec : ℕ) (emin : ℤ) {x : ℚ} (hx : 0 ≤ x) :
    0 ≤ roundMag prec emin x := by
  unfold roundMag
  have hq : (0:ℚ) < 2 ^ quantum prec emin x := zpow_pos (by norm_num) _
  have : 0 ≤ roundHalfEven (x / 2 ^ quantum prec emin x) :=
    roundHalfEven_nonneg (div_nonneg hx hq.le)
  have : (0:ℚ) ≤ (roundHalfEven (x / 2 ^ quantum prec emin x) : ℚ) := by exact_mod_cast this
  positivity

/-- A magnitude below a power of two rounds to at most that power. -/
theorem roundMag_le_two_zpow (prec : ℕ) (emin : ℤ) {x : ℚ} (hx : 0 ≤ x) {k : ℤ}
    (hk : emin - ((prec : ℤ) - 1) ≤ k) (hp : 1 ≤ prec) (h : x < (2:ℚ) ^ k) :
    roundMag prec emin x ≤ (2:ℚ) ^ k := by
  rcases hx.eq_or_lt with h0 | hpos
  · rw [← h0, roundMag_zero]; positivity
  have he : Int.log 2 x < k := log_lt_of_lt_two_zpow hpos h
  set q := quantum prec emin x with hq
  have hqk : q ≤ k := by
    simp only [hq, quantum]
    have hp' : (1:ℤ) ≤ prec := by exact_mod_cast hp
    rcases max_cases (Int.log 2 x) emin with ⟨h1, _⟩ | ⟨h1, _⟩ <;> rw [h1] <;> omega
  obtain ⟨n, hn⟩ : ∃ n : ℕ, k - q = n := ⟨(k - q).toNat, by omega⟩
  have hqpos : (0:ℚ) < 2 ^ q := zpow_pos (by norm_num) _
  have hk2 : (2:ℚ) ^ k = ((2 ^ n : ℤ) : ℚ) * 2 ^ q := by
    have : k = (n : ℤ) + q := by omega
    rw [this, zpow_add₀ (by norm_num), zpow_natCast]; push_cast; ring
  have hy : x / 2 ^ q < ((2 ^ n : ℤ) : ℚ) := by
    rw [div_lt_iff₀ hqpos, ← hk2]; exact h
  have hfl : ⌊x / 2 ^ q⌋ < 2 ^ n := Int.floor_lt.mpr hy
  have hr : roundHalfEven (x / 2 ^ q) ≤ 2 ^ n :=
    le_trans (roundHalfEven_le_floor_add_one _) (by omega)
  have hr' : (roundHalfEven (x / 2 ^ q) : ℚ) ≤ ((2 ^ n : ℤ) : ℚ) := by exact_mod_cast hr
  unfold roundMag
  rw [← hq, hk2]
  exact mul_le_mul_of_nonneg_right hr' hqpos.le

/-- A magnitude at or above a normal power of two rounds to at least that power. -/
theorem two_zpow_le_roundMag (prec : ℕ) (emin : ℤ) {x : ℚ} {k : ℤ}
    (hk : emin ≤ k) (hp : 1 ≤ prec) (h : (2:ℚ) ^ k ≤ x) :
    (2:ℚ) ^ k ≤ roundMag prec emin x := by
  have hpos : 0 < x := lt_of_lt_of_le (zpow_pos (by norm_num) _) h
  have he : k ≤ Int.log 2 x := le_log_of_two_zpow_le hpos h
  set q := quantum prec emin x with hq
  have hqe : q = Int.log 2 x - ((prec : ℤ) - 1) := by
    simp only [hq, quantum]
    rw [max_eq_left (by omega)]
  obtain ⟨n, hn⟩ : ∃ n : ℕ, (prec : ℤ) - 1 = n := ⟨prec - 1, by omega⟩
  have hqpos : (0:ℚ) < 2 ^ q := zpow_pos (by norm_num) _
  have he2 : (2:ℚ) ^ Int.log 2 x = ((2 ^ n : ℤ) : ℚ) * 2 ^ q := by
    have : Int.log 2 x = (n : ℤ) + q := by omega
    rw [this, zpow_add₀ (by norm_num), zpow_natCast]; push_cast; ring
  have hy : ((2 ^ n : ℤ) : ℚ) ≤ x / 2 ^ q := by
    rw [le_div_iff₀ hqpos, ← he2]; exact two_zpow_log_le hpos
  have hfl : 2 ^ n ≤ ⌊x / 2 ^ q⌋ := Int.le_floor.mpr hy
  have hr : 2 ^ n ≤ roundHalfEven (x / 2 ^ q) := le_trans hfl (floor_le_roundHalfEven _)
  have hr' : ((2 ^ n : ℤ) : ℚ) ≤ (roundHalfEven (x / 2 ^ q) : ℚ) := by exact_mod_cast hr
  calc (2:ℚ) ^ k ≤ 2 ^ Int.log 2 x := zpow_le_zpow_right₀ (by norm_num) he
    _ = ((2 ^ n : ℤ) : ℚ) * 2 ^ q := he2
    _ ≤ roundHalfEven (x / 2 ^ q) * 2 ^ q := mul_le_mul_of_nonneg_right hr' hqpos.le
    _ = roundMag prec emin x := by unfold roundMag; rw [← hq]

theorem log_eq_of_binade {x : ℚ} {k : ℤ} (h1 : (2:ℚ) ^ k ≤ x) (h2 : x < (2:ℚ) ^ (k + 1)) :
    Int.log 2 x = k := by
  have hpos : 0 < x := lt_of_lt_of_le (zpow_pos (by norm_num) _) h1
  have a := le_log_of_two_zpow_le hpos h1
  have b := log_lt_of_lt_two_zpow hpos h2
  omega

theorem quantum_of_binade (prec : ℕ) (emin : ℤ) {x : ℚ} {k : ℤ} (hk : emin ≤ k)
    (h1 : (2:ℚ) ^ k ≤ x) (h2 : x < (2:ℚ) ^ (k + 1)) :
    quantum prec emin x = k - ((prec : ℤ) - 1) := by
  unfold quantum
  rw [log_eq_of_binade h1 h2, max_eq_left hk]

/-- The binary32 rounding of a magnitude stays below the binary32 value nearest `0.01`
exactly when the magnitude is below the midpoint between that value and its predecessor. -/
theorem roundMag_lt_tolerance_iff {x : ℚ} (hx : 0 ≤ x) :
    roundMag 24 (-126) x < 10737418 / 2 ^ 30 ↔ x < 21474835 / 2 ^ 31 := by
  rcases lt_or_le x ((2:ℚ) ^ (-7 : ℤ)) with hlo | hlo
  · have h := roundMag_le_two_zpow 24 (-126) hx (k := -7) (by norm_num) (by norm_num) hlo
    have e : (2:ℚ) ^ (-7 : ℤ) = 1 / 128 := by norm_num
    rw [e] at h hlo
    constructor
    · intro _; linarith
    · intro _; exact lt_of_le_of_lt h (by norm_num)
  rcases lt_or_le x ((2:ℚ) ^ (-7 + 1 : ℤ)) with hhi | hhi
  · have hq : quantum 24 (-126) x = -30 := by
      rw [quantum_of_binade 24 (-126) (by norm_num) hlo hhi]; norm_num
    unfold roundMag
    rw [hq]
    have e : (2:ℚ) ^ (-30 : ℤ) = 1 / 2 ^ 30 := by norm_num
    rw [e]
    have hM := roundHalfEven_lt_even (x / (1 / 2 ^ 30)) 10737418 (by norm_num)
    constructor
    · intro h
      have h' : ((roundHalfEven (x / (1 / 2 ^ 30)) : ℤ) : ℚ) < ((10737418 : ℤ) : ℚ) := by
        push_cast
        norm_num at h ⊢
        linarith
      have h'' := hM.mp (by exact_mod_cast h')
      push_cast at h''
      rw [div_lt_iff₀ (by norm_num)] at h''
      linarith
    · intro h
      have h'' : x / (1 / 2 ^ 30) < ((10737418 : ℤ) : ℚ) - 1 / 2 := by
        rw [div_lt_iff₀ (by norm_num)]; push_cast; linarith
      have h' := hM.mpr h''
      have h3 : ((roundHalfEven (x / (1 / 2 ^ 30)) : ℤ) : ℚ) ≤ 10737417 := by
        have : roundHalfEven (x / (1 / 2 ^ 30)) ≤ 10737417 := by omega
        exact_mod_cast this
      calc (roundHalfEven (x / (1 / 2 ^ 30)) : ℚ) * (1 / 2 ^ 30)
          ≤ 10737417 * (1 / 2 ^ 30) := mul_le_mul_of_nonneg_right h3 (by norm_num)
        _ < 10737418 / 2 ^ 30 := by norm_num
  · have h := two_zpow_le_roundMag 24 (-126) (k := -7 + 1) (by norm_num) (by norm_num) hhi
    have e : (2:ℚ) ^ (-7 + 1 : ℤ) = 1 / 64 := by norm_num
    rw [e] at h hhi
    constructor
    · intro h'; exfalso
      have : (10737418 : ℚ) / 2 ^ 30 < 1 / 64 := by norm_num
      linarith
    · intro h'; exfalso
      have : (21474835 : ℚ) / 2 ^ 31 < 1 / 64 := by norm_num
      linarith

/-! ## The tolerance comparison -/

theorem abs_roundNearestEven (prec : ℕ) (emin : ℤ) (x : ℚ) :
    |roundNearestEven prec emin x| = roundMag prec emin |x| := by
  unfold roundNearestEven
  split_ifs with h
  · rw [abs_neg, abs_of_nonneg (roundMag_nonneg prec emin (by linarith)), abs_of_neg h]
  · push_neg at h
    rw [abs_of_nonneg (roundMag_nonneg prec emin h), abs_of_nonneg h]

theorem defaultTolerance_eq : defaultTolerance = F32.fin (10737418 / 2 ^ 30) := by decide!

/-- On finite arguments `floatsAreClose` holds exactly below the rounding midpoint
`21474835 / 2 ^ 31` just under the binary32 value of `0.01`. -/
theorem floatsAreClose_fin (a b : ℚ) :
    floatsAreClose (F32.fin a) (F32.fin b) = true ↔ |a - b| < 21474835 / 2 ^ 31 := by
  have key := roundMag_lt_tolerance_iff (abs_nonneg (a - b))
  rw [← abs_roundNearestEven] at key
  unfold floatsAreClose
  rw [defaultTolerance_eq]
  simp only [F32.sub, F32.ofRat]
  split_ifs with h
  · simp only [F32.abs, F32.lt, Bool.false_eq_true, false_iff]
    intro hc
    have := key.mpr hc
    have : (10737418 : ℚ) / 2 ^ 30 < 2 ^ 128 := by norm_num
    linarith
  · simp only [F32.abs, F32.lt, decide_eq_true_eq]
    exact key

/-- The comparison `floatsAreClose` is false as soon as an argument is a NaN or an infinity. -/
theorem floatsAreClose_iff (a b : F32) :
    floatsAreClose a b = true ↔
      ∃ x y : ℚ, a = F32.fin x ∧ b = F32.fin y ∧ |x - y| < 21474835 / 2 ^ 31 := by
  cases a with
  | nan => simp [floatsAreClose, F32.sub, F32.abs, F32.lt]
  | inf s =>
    cases b with
    | nan => simp [floatsAreClose, F32.sub, F32.abs, F32.lt]
    | inf t =>
      by_cases h : s = t <;>
        simp [floatsAreClose, F32.sub, F32.abs, F32.lt, h, defaultTolerance_eq]
    | fin y => simp [floatsAreClose, F32.sub, F32.abs, F32.lt, defaultTolerance_eq]
  | fin x =>
    cases b with
    | nan => simp [floatsAreClose, F32.sub, F32.abs, F32.lt]
    | inf t => simp [floatsAreClose, F32.sub, F32.abs, F32.lt, defaultTolerance_eq]
    | fin y =>
      rw [floatsAreClose_fin]
      constructor
      · intro h; exact ⟨x, y, rfl, rfl, h⟩
      · rintro ⟨x', y', hx, hy, h⟩
        cases hx; cases hy; exact h

theorem setPdo1Current_eq : setPdo1Current = F32.fin (1 / 2) := by decide!
theorem setPdo2Voltage_eq : setPdo2Voltage = F32.fin 20 := by decide!
theorem setPdo2Current_eq : setPdo2Current = F32.fin (9 / 2) := by decide!
theorem setPdo3Voltage_eq : setPdo3Voltage = F32.fin 20 := by decide!
theorem setPdo3Current_eq : setPdo3Current = F32.fin 5 := by decide!

/-- A binary32 value in the binade `[2 ^ k, 2 ^ (k + 1))` is a multiple of `2 ^ (k - 23)`. -/
theorem isBinary32_binade {v : ℚ} (hv : F32.isBinary32 (F32.fin v) = true) {k : ℤ}
    (hk : -126 ≤ k) (h1 : (2:ℚ) ^ k ≤ v) (h2 : v < (2:ℚ) ^ (k + 1)) :
    ∃ j : ℤ, v = j * 2 ^ (k - 23) := by
  simp only [F32.isBinary32, decide_eq_true_eq] at hv
  have hpos : 0 < v := lt_of_lt_of_le (zpow_pos (by norm_num) _) h1
  have hr := hv.1
  unfold roundNearestEven at hr
  rw [if_neg (by linarith)] at hr
  unfold roundMag at hr
  rw [quantum_of_binade 24 (-126) hk h1 h2] at hr
  refine ⟨roundHalfEven (v / 2 ^ (k - ((24 : ℕ) - 1 : ℤ))), ?_⟩
  have e : k - ((24 : ℕ) - 1 : ℤ) = k - 23 := by norm_num
  rw [e] at hr ⊢
  exact hr.symm

/-- On a grid of step `u` on which `0.01` falls strictly between `B * u` and `(B + 1) * u`,
two grid points closer than `0.01` are at most `B` steps apart. -/
theorem grid_close {u : ℚ} (hu : 0 < u) {B : ℤ} (hB1 : 1 / 100 ≤ (B + 1) * u)
    (hB2 : B * u < 21474835 / 2 ^ 31) {v t : ℚ} {j T : ℤ} (hv : v = j * u) (ht : t = T * u)
    (h : |v - t| < 1 / 100) : |v - t| < 21474835 / 2 ^ 31 := by
  have e : v - t = ((j - T : ℤ) : ℚ) * u := by rw [hv, ht]; push_cast; ring
  rw [e, abs_mul, abs_of_pos hu] at h ⊢
  have h1 : |((j - T : ℤ) : ℚ)| < ((B + 1 : ℤ) : ℚ) := by
    push_cast
    by_contra hc
    push_neg at hc
    have := mul_le_mul_of_nonneg_right hc hu.le
    push_cast at h
    linarith
  have h2 : |j - T| < B + 1 := by
    have : ((|j - T| : ℤ) : ℚ) < ((B + 1 : ℤ) : ℚ) := by rw [Int.cast_abs]; exact h1
    exact_mod_cast this
  have h3 : ((|j - T| : ℤ) : ℚ) ≤ (B : ℚ) := by
    have : |j - T| ≤ B := by omega
    exact_mod_cast this
  rw [Int.cast_abs] at h3
  calc |((j - T : ℤ) : ℚ)| * u ≤ B * u := mul_le_mul_of_nonneg_right h3 hu.le
    _ < 21474835 / 2 ^ 31 := hB2

/-- A binary32 read-back strictly within `0.01` of `20.0` passes the comparison. -/
theorem close_to_20 {v : ℚ} (hv : F32.isBinary32 (F32.fin v) = true) (h : |v - 20| < 1 / 100) :
    floatsAreClose (F32.fin v) (F32.fin 20) = true := by
  rw [floatsAreClose_fin]
  have h' := abs_lt.mp h
  obtain ⟨j, hj⟩ := isBinary32_binade hv (k := 4) (by norm_num) (by norm_num; linarith)
    (by norm_num; linarith)
  exact grid_close (u := 2 ^ ((4:ℤ) - 23)) (by norm_num) (B := 5242) (by norm_num) (by norm_num)
    hj (T := 10485760) (by norm_num) h

/-- A binary32 read-back strictly within `0.01` of `4.5` passes the comparison. -/
theorem close_to_4_5 {v : ℚ} (hv : F32.isBinary32 (F32.fin v) = true)
    (h : |v - 9 / 2| < 1 / 100) : floatsAreClose (F32.fin v) (F32.fin (9 / 2)) = true := by
  rw [floatsAreClose_fin]
  have h' := abs_lt.mp h
  obtain ⟨j, hj⟩ := isBinary32_binade hv (k := 2) (by norm_num) (by norm_num; linarith)
    (by norm_num; linarith)
  exact grid_close (u := 2 ^ ((2:ℤ) - 23)) (by norm_num) (B := 20971) (by norm_num) (by norm_num)
    hj (T := 9437184) (by norm_num) h

/-- A binary32 read-back strictly within `0.01` of `5.0` passes the comparison. -/
theorem close_to_5 {v : ℚ} (hv : F32.isBinary32 (F32.fin v) = true) (h : |v - 5| < 1 / 100) :
    floatsAreClose (F32.fin v) (F32.fin 5) = true := by
  rw [floatsAreClose_fin]
  have h' := abs_lt.mp h
  obtain ⟨j, hj⟩ := isBinary32_binade hv (k := 2) (by norm_num) (by norm_num; linarith)
    (by norm_num; linarith)
  exact grid_close (u := 2 ^ ((2:ℤ) - 23)) (by norm_num) (B := 20971) (by norm_num) (by norm_num)
    hj (T := 10485760) (by norm_num) h

/-! ## The tolerance predicate (C1, C2) -/

/-- C1 as stated fails at the boundary. The parameter `tolerance` is a `float`, so its default
`0.01` is the binary32 value `10737418 / 2 ^ 30 = 0.00999999977648…`. For `a` equal to that
value and `b = 0` the difference `|a - b|` is below `0.01`, yet `a - b` equals the tolerance
and `floatsAreClose(a, b)` is false. -/
theorem floatsAreClose_boundary_counterexample :
    defaultTolerance = .fin (10737418 / 2 ^ 30) ∧
    F32.isBinary32 (.fin (10737418 / 2 ^ 30)) = true ∧ F32.isBinary32 (.fin 0) = true ∧
    |(10737418 / 2 ^ 30 : ℚ) - 0| < 1 / 100 ∧
    floatsAreClose (.fin (10737418 / 2 ^ 30)) (.fin 0) = false := by
  refine ⟨defaultTolerance_eq, by decide!, by decide!, ?_, ?_⟩
  · rw [sub_zero, abs_of_pos (by norm_num)]; norm_num
  · rw [Bool.eq_false_iff, Ne, floatsAreClose_fin, sub_zero, abs_of_pos (by norm_num)]
    norm_num

/-- C1, as amended. `floatsAreClose(a, b)` with the default tolerance is true exactly when both
values are finite and `|a - b| < 21474835 / 2 ^ 31 = 0.00999999931…`, the rounding midpoint just
below the binary32 tolerance. So a true result means `|a - b| < 0.01`, and every finite pair
with `|a - b| ≥ 0.01` is rejected, for instance 20.5 against 20.0: the absolute value is the
real-valued one and truncates nothing. -/
theorem floatsAreClose_exact (a b : F32) :
    (floatsAreClose a b = true ↔
      ∃ x y : ℚ, a = .fin x ∧ b = .fin y ∧ |x - y| < 21474835 / 2 ^ 31) ∧
    (floatsAreClose a b = true →
      ∃ x y : ℚ, a = .fin x ∧ b = .fin y ∧ |x - y| < 1 / 100) ∧
    (∀ x y : ℚ, a = .fin x → b = .fin y → 1 / 100 ≤ |x - y| → floatsAreClose a b = false) ∧
    floatsAreClose (.fin (41 / 2)) (.fin 20) = false := by
  refine ⟨floatsAreClose_iff a b, ?_, ?_, ?_⟩
  · intro h
    obtain ⟨x, y, hx, hy, hxy⟩ := (floatsAreClose_iff a b).mp h
    exact ⟨x, y, hx, hy, lt_trans hxy (by norm_num)⟩
  · intro x y hx hy hxy
    rw [hx, hy, Bool.eq_false_iff, Ne, floatsAreClose_fin]
    intro h
    have : (21474835 : ℚ) / 2 ^ 31 < 1 / 100 := by norm_num
    linarith
  · rw [Bool.eq_false_iff, Ne, floatsAreClose_fin, abs_of_pos (by norm_num)]
    norm_num

/-- C2 as stated fails: `floatsAreClose(a, a)` is false when `a` is a NaN or an infinity,
because `a - a` is then a NaN and every comparison with a NaN is false. -/
theorem floatsAreClose_nan_counterexample :
    floatsAreClose .nan .nan = false ∧
    floatsAreClose (.inf false) (.inf false) = false ∧
    floatsAreClose (.inf true) (.inf true) = false := by
  refine ⟨?_, ?_, ?_⟩ <;> simp [floatsAreClose, F32.sub, F32.abs, F32.lt]

/-- C2, as amended. With the default tolerance `floatsAreClose(a, a)` is true for every finite
`a`, and `floatsAreClose(a, b) = floatsAreClose(b, a)` for all values, NaN and infinities
included. -/
theorem floatsAreClose_refl_symm :
    (∀ x : ℚ, floatsAreClose (.fin x) (.fin x) = true) ∧
    (∀ a b : F32, floatsAreClose a b = floatsAreClose b a) := by
  constructor
  · intro x
    rw [floatsAreClose_fin]
    norm_num
  · intro a b
    rw [Bool.eq_iff_iff, floatsAreClose_iff, floatsAreClose_iff]
    constructor
    · rintro ⟨x, y, hx, hy, h⟩
      exact ⟨y, x, hy, hx, by rw [abs_sub_comm]; exact h⟩
    · rintro ⟨x, y, hx, hy, h⟩
      exact ⟨y, x, hy, hx, by rw [abs_sub_comm]; exact h⟩

/-! ## Shape of a run -/

theorem verify_fst (usb : Profile) :
    (verify usb).1 =
      [.getPdoNumber usb.pdoNum,
       .getVoltage 2 usb.pdo2Voltage, .getCurrent 2 usb.pdo2Current,
       .getVoltage 3 usb.pdo3Voltage, .getCurrent 3 usb.pdo3Current] := rfl

theorem verify_snd (usb : Profile) :
    (verify usb).2 = true ↔
      (usb.pdoNum ≠ setPdoNum ∨ floatsAreClose usb.pdo2Voltage setPdo2Voltage = false ∨
        floatsAreClose usb.pdo2Current setPdo2Current = false ∨
        floatsAreClose usb.pdo3Voltage setPdo3Voltage = false ∨
        floatsAreClose usb.pdo3Current setPdo3Current = false) := by
  simp only [verify]
  by_cases h1 : usb.pdoNum = setPdoNum <;>
  cases h2 : floatsAreClose usb.pdo2Voltage setPdo2Voltage <;>
  cases h3 : floatsAreClose usb.pdo2Current setPdo2Current <;>
  cases h4 : floatsAreClose usb.pdo3Voltage setPdo3Voltage <;>
  cases h5 : floatsAreClose usb.pdo3Current setPdo3Current <;>
  simp [h1]

theorem main_waiting (b : Bool) (c : Profile) :
    main ⟨none, b, c⟩ =
      ⟨[.stdio_init_all], [.stdio_usb_connected false, .sleep_ms 100], .waitForConsole⟩ := rfl

theorem main_initFail (polls : Nat) (c : Profile) :
    main ⟨some polls, false, c⟩ =
      ⟨bringUp polls ++ [.begin STUSB4500_I2C_ADDR false], enterErrorState_InitFail,
        .initFail⟩ := rfl

theorem main_verifyFail (polls : Nat) (c : Profile) (h : (verify c).2 = true) :
    main ⟨some polls, true, c⟩ =
      ⟨bringUp polls ++ [.begin STUSB4500_I2C_ADDR true] ++ configure ++ commit ++ (verify c).1,
        enterErrorState_VerifyFail, .verifyFail⟩ := by
  simp only [main, Bool.not_true, Bool.false_eq_true, if_false]
  rw [show verify c = ((verify c).1, (verify c).2) from rfl]
  simp only [h, if_true]

theorem main_success (polls : Nat) (c : Profile) (h : (verify c).2 = false) :
    main ⟨some polls, true, c⟩ =
      ⟨bringUp polls ++ [.begin STUSB4500_I2C_ADDR true] ++ configure ++ commit ++ (verify c).1
        ++ successTail, [], .success⟩ := by
  simp only [main, Bool.not_true, Bool.false_eq_true, if_false]
  rw [show verify c = ((verify c).1, (verify c).2) from rfl]
  simp only [h, Bool.false_eq_true, if_false]

/-- The desired profile read back unchanged passes verification. -/
theorem verify_desired : (verify desired).2 = false := by
  rw [Bool.eq_false_iff, Ne, verify_snd]
  simp only [desired, setPdo2Voltage_eq, setPdo2Current_eq, setPdo3Voltage_eq, setPdo3Current_eq,
    Bool.eq_false_iff, Ne, floatsAreClose_fin]
  norm_num

theorem waitConnected_plain (polls : Nat) :
    ∀ a ∈ waitConnected polls, a.isDriverCall = false ∧ a.isReboot = false := by
  induction polls with
  | zero => intro a ha; simp [waitConnected] at ha; subst ha; exact ⟨rfl, rfl⟩
  | succ n ih =>
    intro a ha
    simp only [waitConnected, List.mem_cons] at ha
    rcases ha with rfl | rfl | ha
    · exact ⟨rfl, rfl⟩
    · exact ⟨rfl, rfl⟩
    · exact ih a ha

/-- Bring-up performs no driver call and no restart. -/
theorem bringUp_plain (polls : Nat) :
    ∀ a ∈ bringUp polls, a.isDriverCall = false ∧ a.isReboot = false := by
  intro a ha
  simp only [bringUp, List.mem_cons, List.mem_append, List.mem_singleton, List.not_mem_nil,
    or_false] at ha
  rcases ha with (rfl | ha) | ha
  · exact ⟨rfl, rfl⟩
  · exact waitConnected_plain polls a ha
  · rcases ha with rfl | rfl | rfl | rfl | rfl | rfl | rfl | rfl | rfl <;> exact ⟨rfl, rfl⟩

namespace Run

theorem nth_loop (r : Run) (i : Nat) :
    r.nth (r.actions.length + i) = r.forever[i % r.forever.length]? := by
  simp [nth]

theorem mem_of_nth {r : Run} {i : Nat} {a : Action} (h : r.nth i = some a) :
    a ∈ r.actions ∨ a ∈ r.forever := by
  unfold nth at h
  split_ifs at h
  · exact Or.inl (List.getElem?_mem h)
  · exact Or.inr (List.getElem?_mem h)

end Run

/-! ## What verification accepts (C3, C4) -/

/-- C3 as stated fails: verification compares five read-backs only. A controller that reports
the desired profile except for a PDO1 current of 1.5 A instead of 0.5 A passes, and the run
ends in success; so does one that differs only in `externalPowerOnly` being true. -/
theorem unchecked_field_counterexample :
    ({ desired with pdo1Current := .fin (3 / 2) } : Profile).pdo1Current ≠ desired.pdo1Current ∧
    floatsAreClose (.fin (3 / 2)) desired.pdo1Current = false ∧
    (verify { desired with pdo1Current := .fin (3 / 2) }).2 = false ∧
    (main ⟨some 0, true, { desired with pdo1Current := .fin (3 / 2) }⟩).halt = .success ∧
    ({ desired with extPower := true } : Profile).extPower ≠ desired.extPower ∧
    (verify { desired with extPower := true }).2 = false ∧
    (main ⟨some 0, true, { desired with extPower := true }⟩).halt = .success := by
  have h1 : (verify { desired with pdo1Current := .fin (3 / 2) }).2 = false := verify_desired
  have h2 : (verify { desired with extPower := true }).2 = false := verify_desired
  refine ⟨?_, ?_, h1, ?_, by decide, h2, ?_⟩
  · show F32.fin (3 / 2) ≠ setPdo1Current
    rw [setPdo1Current_eq]
    intro h
    injection h with h
    norm_num at h
  · show floatsAreClose (.fin (3 / 2)) setPdo1Current = false
    rw [setPdo1Current_eq, Bool.eq_false_iff, Ne, floatsAreClose_fin, abs_of_pos (by norm_num)]
    norm_num
  · rw [main_success 0 _ h1]
  · rw [main_success 0 _ h2]

/-- C3, as amended. If `verificationFailed` stays false, the PDO number read back is exactly 3
and the PDO2 and PDO3 voltages and currents read back are finite and within 0.01 of 20.0 V,
4.5 A, 20.0 V and 5.0 A. Nothing else is read back: every controller state that agrees on
these five fields passes as well, whatever its PDO1 current, limit percentages and flags. -/
theorem pass_checks_five_fields (c : Profile) (h : (verify c).2 = false) :
    c.pdoNum = 3 ∧
    (∃ v2 i2 v3 i3 : ℚ,
      c.pdo2Voltage = .fin v2 ∧ |v2 - 20| < 1 / 100 ∧
      c.pdo2Current = .fin i2 ∧ |i2 - 9 / 2| < 1 / 100 ∧
      c.pdo3Voltage = .fin v3 ∧ |v3 - 20| < 1 / 100 ∧
      c.pdo3Current = .fin i3 ∧ |i3 - 5| < 1 / 100) ∧
    (∀ d : Profile, d.pdoNum = c.pdoNum → d.pdo2Voltage = c.pdo2Voltage →
      d.pdo2Current = c.pdo2Current → d.pdo3Voltage = c.pdo3Voltage →
      d.pdo3Current = c.pdo3Current → (verify d).2 = false) := by
  have hc := h
  rw [Bool.eq_false_iff, Ne, verify_snd] at h
  push_neg at h
  obtain ⟨hn, h2v, h2i, h3v, h3i⟩ := h
  simp only [Bool.not_eq_false] at h2v h2i h3v h3i
  rw [setPdo2Voltage_eq] at h2v
  rw [setPdo2Current_eq] at h2i
  rw [setPdo3Voltage_eq] at h3v
  rw [setPdo3Current_eq] at h3i
  have lt : (21474835 : ℚ) / 2 ^ 31 < 1 / 100 := by norm_num
  obtain ⟨v2, y, e2v, ey, b2v⟩ := (floatsAreClose_iff _ _).mp h2v
  cases ey
  obtain ⟨i2, y, e2i, ey, b2i⟩ := (floatsAreClose_iff _ _).mp h2i
  cases ey
  obtain ⟨v3, y, e3v, ey, b3v⟩ := (floatsAreClose_iff _ _).mp h3v
  cases ey
  obtain ⟨i3, y, e3i, ey, b3i⟩ := (floatsAreClose_iff _ _).mp h3i
  cases ey
  refine ⟨hn, ⟨v2, i2, v3, i3, e2v, lt_trans b2v lt, e2i, lt_trans b2i lt, e3v,
    lt_trans b3v lt, e3i, lt_trans b3i lt⟩, ?_⟩
  intro d d1 d2 d3 d4 d5
  have : verify d = verify c := by
    simp only [verify, d1, d2, d3, d4, d5]
  rw [this]; exact hc

/-- Witness for C3: the desired profile read back unchanged. -/
theorem pass_checks_five_fields_witness :
    (verify desired).2 = false ∧ desired.pdoNum = 3 :=
  ⟨verify_desired, (pass_checks_five_fields desired verify_desired).1⟩

/-- C4 as stated fails at the endpoints. The `float` written `19.99` is
`10480517 / 2 ^ 19 = 19.98999977…`; read back as PDO2 voltage, with everything else as desired,
it differs from `20.0` by more than the tolerance, `verificationFailed` becomes true and the run
ends in the verification-failure loop. The exact number 19.99, which no `float` holds, would be
rejected too. -/
theorem endpoint_counterexample :
    F32.ofLiteral (1999 / 100) = .fin (10480517 / 2 ^ 19) ∧
    F32.isBinary32 (.fin (10480517 / 2 ^ 19)) = true ∧
    floatsAreClose (.fin (10480517 / 2 ^ 19)) (.fin 20) = false ∧
    (verify { desired with pdo2Voltage := .fin (10480517 / 2 ^ 19) }).2 = true ∧
    (main ⟨some 0, true, { desired with pdo2Voltage := .fin (10480517 / 2 ^ 19) }⟩).halt
      = .verifyFail ∧
    floatsAreClose (.fin (1999 / 100)) (.fin 20) = false := by
  have hc : floatsAreClose (.fin (10480517 / 2 ^ 19)) (.fin 20) = false := by
    rw [Bool.eq_false_iff, Ne, floatsAreClose_fin, abs_of_neg (by norm_num)]
    norm_num
  have hv : (verify { desired with pdo2Voltage := .fin (10480517 / 2 ^ 19) }).2 = true := by
    rw [verify_snd]
    right; left
    show floatsAreClose (.fin (10480517 / 2 ^ 19)) setPdo2Voltage = false
    rw [setPdo2Voltage_eq]; exact hc
  refine ⟨by decide!, by decide!, hc, hv, ?_, ?_⟩
  · rw [main_verifyFail 0 _ hv]
  · rw [Bool.eq_false_iff, Ne, floatsAreClose_fin, abs_of_neg (by norm_num)]
    norm_num

/-- C4 (Scenario A), as amended. When `begin` succeeds, the PDO number reads back as 3 and the
four `float` read-backs lie strictly inside the ranges, PDO2 and PDO3 voltage in
(19.99, 20.01), PDO2 current in (4.49, 4.51), PDO3 current in (4.99, 5.01), then
`verificationFailed` stays false, the run takes the success path, the LED is set on and
`watchdog_reboot(0, 0, 0)` is called as the last call of the run. -/
theorem scenarioA_passes (polls : Nat) (c : Profile) (v2 i2 v3 i3 : ℚ)
    (hn : c.pdoNum = 3)
    (e2v : c.pdo2Voltage = .fin v2) (r2v : F32.isBinary32 (.fin v2) = true)
    (b2v : 1999 / 100 < v2 ∧ v2 < 2001 / 100)
    (e2i : c.pdo2Current = .fin i2) (r2i : F32.isBinary32 (.fin i2) = true)
    (b2i : 449 / 100 < i2 ∧ i2 < 451 / 100)
    (e3v : c.pdo3Voltage = .fin v3) (r3v : F32.isBinary32 (.fin v3) = true)
    (b3v : 1999 / 100 < v3 ∧ v3 < 2001 / 100)
    (e3i : c.pdo3Current = .fin i3) (r3i : F32.isBinary32 (.fin i3) = true)
    (b3i : 499 / 100 < i3 ∧ i3 < 501 / 100) :
    (verify c).2 = false ∧
    (main ⟨some polls, true, c⟩).halt = .success ∧
    (main ⟨some polls, true, c⟩).actions =
      bringUp polls ++ [.begin STUSB4500_I2C_ADDR true] ++ configure ++ commit ++ (verify c).1
        ++ [.gpio_put STATUS_LED_PIN true, .sleep_ms 10000, .sleep_ms 100,
            .watchdog_reboot 0 0 0] ∧
    (main ⟨some polls, true, c⟩).forever = [] := by
  have h1 : floatsAreClose c.pdo2Voltage setPdo2Voltage = true := by
    rw [e2v, setPdo2Voltage_eq]
    exact close_to_20 r2v (abs_lt.mpr ⟨by linarith [b2v.1], by linarith [b2v.2]⟩)
  have h2 : floatsAreClose c.pdo2Current setPdo2Current = true := by
    rw [e2i, setPdo2Current_eq]
    exact close_to_4_5 r2i (abs_lt.mpr ⟨by linarith [b2i.1], by linarith [b2i.2]⟩)
  have h3 : floatsAreClose c.pdo3Voltage setPdo3Voltage = true := by
    rw [e3v, setPdo3Voltage_eq]
    exact close_to_20 r3v (abs_lt.mpr ⟨by linarith [b3v.1], by linarith [b3v.2]⟩)
  have h4 : floatsAreClose c.pdo3Current setPdo3Current = true := by
    rw [e3i, setPdo3Current_eq]
    exact close_to_5 r3i (abs_lt.mpr ⟨by linarith [b3i.1], by linarith [b3i.2]⟩)
  have hv : (verify c).2 = false := by
    rw [Bool.eq_false_iff, Ne, verify_snd, h1, h2, h3, h4]
    simp [hn, setPdoNum]
  rw [main_success polls c hv]
  exact ⟨hv, rfl, rfl, rfl⟩

/-- Witness for C4: the first `float` above 19.99 for both voltages, the first above 4.49 and
the last below 5.01 for the currents; each is a binary32 value strictly inside its range. -/
theorem scenarioA_passes_witness :
    (F32.isBinary32 (.fin (10480518 / 2 ^ 19)) = true ∧
      (1999 / 100 : ℚ) < 10480518 / 2 ^ 19 ∧ (10480518 / 2 ^ 19 : ℚ) < 2001 / 100) ∧
    (F32.isBinary32 (.fin (9416213 / 2 ^ 21)) = true ∧
      (449 / 100 : ℚ) < 9416213 / 2 ^ 21 ∧ (9416213 / 2 ^ 21 : ℚ) < 451 / 100) ∧
    (F32.isBinary32 (.fin (10506731 / 2 ^ 21)) = true ∧
      (499 / 100 : ℚ) < 10506731 / 2 ^ 21 ∧ (10506731 / 2 ^ 21 : ℚ) < 501 / 100) ∧
    (verify { desired with
      pdo2Voltage := .fin (10480518 / 2 ^ 19), pdo2Current := .fin (9416213 / 2 ^ 21),
      pdo3Voltage := .fin (10480518 / 2 ^ 19), pdo3Current := .fin (10506731 / 2 ^ 21) }).2
      = false ∧
    (main ⟨some 1, true, { desired with
      pdo2Voltage := .fin (10480518 / 2 ^ 19), pdo2Current := .fin (9416213 / 2 ^ 21),
      pdo3Voltage := .fin (10480518 / 2 ^ 19), pdo3Current := .fin (10506731 / 2 ^ 21) }⟩).halt
      = .success := by
  have r1 : F32.isBinary32 (.fin (10480518 / 2 ^ 19)) = true := by decide!
  have r2 : F32.isBinary32 (.fin (9416213 / 2 ^ 21)) = true := by decide!
  have r3 : F32.isBinary32 (.fin (10506731 / 2 ^ 21)) = true := by decide!
  have b1 : (1999 / 100 : ℚ) < 10480518 / 2 ^ 19 ∧ (10480518 / 2 ^ 19 : ℚ) < 2001 / 100 := by
    norm_num
  have b2 : (449 / 100 : ℚ) < 9416213 / 2 ^ 21 ∧ (9416213 / 2 ^ 21 : ℚ) < 451 / 100 := by
    norm_num
  have b3 : (499 / 100 : ℚ) < 10506731 / 2 ^ 21 ∧ (10506731 / 2 ^ 21 : ℚ) < 501 / 100 := by
    norm_num
  have h := scenarioA_passes 1
    { desired with
      pdo2Voltage := .fin (10480518 / 2 ^ 19), pdo2Current := .fin (9416213 / 2 ^ 21),
      pdo3Voltage := .fin (10480518 / 2 ^ 19), pdo3Current := .fin (10506731 / 2 ^ 21) }
    (10480518 / 2 ^ 19) (9416213 / 2 ^ 21) (10480518 / 2 ^ 19) (10506731 / 2 ^ 21)
    rfl rfl r1 b1 rfl r2 b2 rfl r1 b1 rfl r3 b3
  exact ⟨⟨r1, b1⟩, ⟨r2, b2⟩, ⟨r3, b3⟩, h.1, h.2.1⟩

/-! ## Failure and success paths (C5 to C10) -/

/-- C5 (Scenario B). When `usb.begin` returns false the run ends in the loop of
`enterErrorState_InitFail`: the failed `begin` is the last call made once, every call after it
belongs to the repeating pattern LED on, wait 100 ms, LED off, wait 100 ms, and no call of the
whole run is a setter, `write`, `softReset`, a getter or the restart. -/
theorem initFail_only_blinks (polls : Nat) (c : Profile) :
    (main ⟨some polls, false, c⟩).halt = .initFail ∧
    (main ⟨some polls, false, c⟩).actions = bringUp polls ++ [.begin STUSB4500_I2C_ADDR false] ∧
    (∀ k : Nat,
      (main ⟨some polls, false, c⟩).nth ((main ⟨some polls, false, c⟩).actions.length + 4 * k)
        = some (.gpio_put STATUS_LED_PIN true) ∧
      (main ⟨some polls, false, c⟩).nth ((main ⟨some polls, false, c⟩).actions.length + 4 * k + 1)
        = some (.sleep_ms 100) ∧
      (main ⟨some polls, false, c⟩).nth ((main ⟨some polls, false, c⟩).actions.length + 4 * k + 2)
        = some (.gpio_put STATUS_LED_PIN false) ∧
      (main ⟨some polls, false, c⟩).nth ((main ⟨some polls, false, c⟩).actions.length + 4 * k + 3)
        = some (.sleep_ms 100)) ∧
    (∀ (i : Nat) (a : Action), (main ⟨some polls, false, c⟩).nth i = some a →
      a.isDriverCall = false ∧ a.isReboot = false) := by
  rw [main_initFail]
  refine ⟨rfl, rfl, ?_, ?_⟩
  · intro k
    have h0 : (4 * k) % 4 = 0 := by omega
    have h1 : (4 * k + 1) % 4 = 1 := by omega
    have h2 : (4 * k + 2) % 4 = 2 := by omega
    have h3 : (4 * k + 3) % 4 = 3 := by omega
    refine ⟨?_, ?_, ?_, ?_⟩
    · rw [Run.nth_loop]; simp [enterErrorState_InitFail, h0]
    · rw [Nat.add_assoc, Run.nth_loop]; simp [enterErrorState_InitFail, h1]
    · rw [Nat.add_assoc, Run.nth_loop]; simp [enterErrorState_InitFail, h2]
    · rw [Nat.add_assoc, Run.nth_loop]; simp [enterErrorState_InitFail, h3]
  · intro i a h
    rcases Run.mem_of_nth h with ha | ha
    · simp only [List.mem_append, List.mem_singleton] at ha
      rcases ha with ha | rfl
      · exact bringUp_plain polls a ha
      · exact ⟨rfl, rfl⟩
    · simp only [enterErrorState_InitFail, List.mem_cons, List.not_mem_nil, or_false] at ha
      rcases ha with rfl | rfl | rfl | rfl <;> exact ⟨rfl, rfl⟩

/-- Nothing up to and including the read-backs is the restart. -/
theorem no_reboot_through_verify (polls : Nat) (b : Bool) (c : Profile) :
    ∀ a ∈ bringUp polls ++ [.begin STUSB4500_I2C_ADDR b] ++ configure ++ commit ++ (verify c).1,
      a.isReboot = false := by
  intro a ha
  simp only [List.mem_append, List.mem_singleton] at ha
  rcases ha with (((ha | rfl) | ha) | ha) | ha
  · exact (bringUp_plain polls a ha).2
  · rfl
  · have : configure.all (fun a => !a.isReboot) = true := rfl
    simpa using List.all_eq_true.mp this a ha
  · have : commit.all (fun a => !a.isReboot) = true := rfl
    simpa using List.all_eq_true.mp this a ha
  · have : (verify c).1.all (fun a => !a.isReboot) = true := rfl
    simpa using List.all_eq_true.mp this a ha

/-- C6 (Scenario C). When `begin` succeeds and the PDO number read back is not 3, whatever the
four voltage and current read-backs are: `verificationFailed` ends true, the run ends in the
loop of `enterErrorState_VerifyFail`, every call after the read-backs belongs to the repeating
pattern LED on, wait 1000 ms, LED off, wait 1000 ms, and no call of the run is the restart.
The PDO number is compared exactly: with any read-back `n` in its place, verification can
pass only if `n = 3`. -/
theorem pdoNum_mismatch_halts (polls : Nat) (c : Profile) (h : c.pdoNum ≠ 3) :
    (verify c).2 = true ∧
    (main ⟨some polls, true, c⟩).halt = .verifyFail ∧
    (main ⟨some polls, true, c⟩).actions =
      bringUp polls ++ [.begin STUSB4500_I2C_ADDR true] ++ configure ++ commit ++ (verify c).1 ∧
    (∀ k : Nat,
      (main ⟨some polls, true, c⟩).nth ((main ⟨some polls, true, c⟩).actions.length + 4 * k)
        = some (.gpio_put STATUS_LED_PIN true) ∧
      (main ⟨some polls, true, c⟩).nth ((main ⟨some polls, true, c⟩).actions.length + 4 * k + 1)
        = some (.sleep_ms 1000) ∧
      (main ⟨some polls, true, c⟩).nth ((main ⟨some polls, true, c⟩).actions.length + 4 * k + 2)
        = some (.gpio_put STATUS_LED_PIN false) ∧
      (main ⟨some polls, true, c⟩).nth ((main ⟨some polls, true, c⟩).actions.length + 4 * k + 3)
        = some (.sleep_ms 1000)) ∧
    (∀ (i : Nat) (a : Action), (main ⟨some polls, true, c⟩).nth i = some a →
      a.isReboot = false) ∧
    (∀ n : Nat, (verify { c with pdoNum := n }).2 = false → n = 3) := by
  have hv : (verify c).2 = true := (verify_snd c).mpr (Or.inl h)
  rw [main_verifyFail polls c hv]
  refine ⟨hv, rfl, rfl, ?_, ?_, ?_⟩
  · intro k
    have h0 : (4 * k) % 4 = 0 := by omega
    have h1 : (4 * k + 1) % 4 = 1 := by omega
    have h2 : (4 * k + 2) % 4 = 2 := by omega
    have h3 : (4 * k + 3) % 4 = 3 := by omega
    refine ⟨?_, ?_, ?_, ?_⟩
    · rw [Run.nth_loop]; simp [enterErrorState_VerifyFail, h0]
    · rw [Nat.add_assoc, Run.nth_loop]; simp [enterErrorState_VerifyFail, h1]
    · rw [Nat.add_assoc, Run.nth_loop]; simp [enterErrorState_VerifyFail, h2]
    · rw [Nat.add_assoc, Run.nth_loop]; simp [enterErrorState_VerifyFail, h3]
  · intro i a hi
    rcases Run.mem_of_nth hi with ha | ha
    · exact no_reboot_through_verify polls true c a ha
    · simp only [enterErrorState_VerifyFail, List.mem_cons, List.not_mem_nil, or_false] at ha
      rcases ha with rfl | rfl | rfl | rfl <;> rfl
  · intro n hn
    by_contra hne
    have := (verify_snd { c with pdoNum := n }).mpr (Or.inl hne)
    rw [hn] at this
    exact Bool.false_ne_true this

/-- Witness for C6: the read-back of Scenario C, PDO number 2 and everything else as desired. -/
theorem pdoNum_mismatch_halts_witness :
    ({ desired with pdoNum := 2 } : Profile).pdoNum ≠ 3 ∧
    (verify { desired with pdoNum := 2 }).2 = true ∧
    (main ⟨some 0, true, { desired with pdoNum := 2 }⟩).halt = .verifyFail :=
  ⟨by decide,
   (pdoNum_mismatch_halts 0 { desired with pdoNum := 2 } (by decide)).1,
   (pdoNum_mismatch_halts 0 { desired with pdoNum := 2 } (by decide)).2.1⟩

/-- The calls made once when `begin` succeeds: bring-up, `begin`, the setters, the commit, the
read-backs and, when verification passed, the success path. -/
theorem main_actions (polls : Nat) (c : Profile) :
    (main ⟨some polls, true, c⟩).actions =
      bringUp polls ++ [.begin STUSB4500_I2C_ADDR true] ++ configure ++ commit ++ (verify c).1
        ++ (if (verify c).2 = true then [] else successTail) := by
  cases h : (verify c).2
  · rw [main_success polls c h]; simp
  · rw [main_verifyFail polls c h]; simp

theorem bringUp_filter_isSetter (polls : Nat) : (bringUp polls).filter Action.isSetter = [] := by
  rw [List.filter_eq_nil_iff]
  intro a ha
  have := (bringUp_plain polls a ha).1
  simp only [Action.isDriverCall, Bool.or_eq_false_iff] at this
  simp [this.1.1.1]

theorem bringUp_filter_isGetter (polls : Nat) : (bringUp polls).filter Action.isGetter = [] := by
  rw [List.filter_eq_nil_iff]
  intro a ha
  have := (bringUp_plain polls a ha).1
  simp only [Action.isDriverCall, Bool.or_eq_false_iff] at this
  simp [this.1.1.2]

/-- C7. When `begin` succeeds, the setter calls of the run are, in this order, the PDO number,
PDO1 current and upper limit, PDO2 voltage, current, lower and upper limit, PDO3 voltage,
current, lower and upper limit, then external power, USB-comm capable, config-ok mode and
power above 5 V, each with the value of the desired profile; they are issued between `begin`
and `write` and none follows `write`; no call of the run sets the PDO1 voltage or the PDO1
lower limit. -/
theorem setter_order (polls : Nat) (c : Profile) :
    (main ⟨some polls, true, c⟩).actions.filter Action.isSetter =
      [.setPdoNumber 3,
       .setCurrent 1 (.fin (1 / 2)), .setUpperVoltageLimit 1 20,
       .setVoltage 2 (.fin 20), .setCurrent 2 (.fin (9 / 2)),
       .setLowerVoltageLimit 2 10, .setUpperVoltageLimit 2 20,
       .setVoltage 3 (.fin 20), .setCurrent 3 (.fin 5),
       .setLowerVoltageLimit 3 20, .setUpperVoltageLimit 3 20,
       .setExternalPower false, .setUsbCommCapable true,
       .setConfigOkGpio 2, .setPowerAbove5vOnly true] ∧
    (main ⟨some polls, true, c⟩).actions.filter Action.isSetter =
      [.setPdoNumber desired.pdoNum,
       .setCurrent 1 desired.pdo1Current, .setUpperVoltageLimit 1 desired.pdo1Ovlo,
       .setVoltage 2 desired.pdo2Voltage, .setCurrent 2 desired.pdo2Current,
       .setLowerVoltageLimit 2 desired.pdo2Uvlo, .setUpperVoltageLimit 2 desired.pdo2Ovlo,
       .setVoltage 3 desired.pdo3Voltage, .setCurrent 3 desired.pdo3Current,
       .setLowerVoltageLimit 3 desired.pdo3Uvlo, .setUpperVoltageLimit 3 desired.pdo3Ovlo,
       .setExternalPower desired.extPower, .setUsbCommCapable desired.usbComm,
       .setConfigOkGpio desired.configOk, .setPowerAbove5vOnly desired.pwrAbove5] ∧
    (∃ before after : List Action,
      (main ⟨some polls, true, c⟩).actions
        = before ++ (main ⟨some polls, true, c⟩).actions.filter Action.isSetter
          ++ .write :: after ∧
      before.filter Action.isSetter = [] ∧ after.filter Action.isSetter = []) ∧
    (∀ (i : Nat) (v : F32), (main ⟨some polls, true, c⟩).nth i ≠ some (.setVoltage 1 v)) ∧
    (∀ (i p : Nat), (main ⟨some polls, true, c⟩).nth i ≠ some (.setLowerVoltageLimit 1 p)) := by
  have hf : (main ⟨some polls, true, c⟩).actions.filter Action.isSetter = configure := by
    rw [main_actions]
    simp only [List.filter_append, bringUp_filter_isSetter]
    have h1 : configure.filter Action.isSetter = configure := rfl
    have h2 : commit.filter Action.isSetter = [] := rfl
    have h3 : (verify c).1.filter Action.isSetter = [] := rfl
    have h4 : (if (verify c).2 = true then [] else successTail).filter Action.isSetter = [] := by
      split <;> rfl
    rw [h1, h2, h3, h4]
    rfl
  have hloop : ∀ a ∈ (main ⟨some polls, true, c⟩).forever, a.isSetter = false := by
    intro a ha
    cases h : (verify c).2
    · rw [main_success polls c h] at ha; simp at ha
    · rw [main_verifyFail polls c h] at ha
      simp only [enterErrorState_VerifyFail, List.mem_cons, List.not_mem_nil, or_false] at ha
      rcases ha with rfl | rfl | rfl | rfl <;> rfl
  have hval : configure =
      [.setPdoNumber 3,
       .setCurrent 1 (.fin (1 / 2)), .setUpperVoltageLimit 1 20,
       .setVoltage 2 (.fin 20), .setCurrent 2 (.fin (9 / 2)),
       .setLowerVoltageLimit 2 10, .setUpperVoltageLimit 2 20,
       .setVoltage 3 (.fin 20), .setCurrent 3 (.fin 5),
       .setLowerVoltageLimit 3 20, .setUpperVoltageLimit 3 20,
       .setExternalPower false, .setUsbCommCapable true,
       .setConfigOkGpio 2, .setPowerAbove5vOnly true] := by
    simp only [configure, setPdo1Current_eq, setPdo2Voltage_eq, setPdo2Current_eq,
      setPdo3Voltage_eq, setPdo3Current_eq]
    rfl
  have hnone : ∀ (i : Nat) (a : Action), (main ⟨some polls, true, c⟩).nth i = some a →
      a.isSetter = true → a ∈ configure := by
    intro i a hi hs
    rcases Run.mem_of_nth hi with ha | ha
    · rw [← hf]; exact List.mem_filter.mpr ⟨ha, hs⟩
    · rw [hloop a ha] at hs; exact absurd hs (by decide)
  refine ⟨hf.trans hval, hf.trans rfl, ?_, ?_, ?_⟩
  · refine ⟨bringUp polls ++ [.begin STUSB4500_I2C_ADDR true],
      [.sleep_ms 50, .softReset, .sleep_ms 750] ++ (verify c).1
        ++ (if (verify c).2 = true then [] else successTail), ?_, ?_, ?_⟩
    · rw [hf, main_actions]; simp [commit]
    · rw [List.filter_append, bringUp_filter_isSetter]; rfl
    · simp only [List.filter_append]
      have h3 : (verify c).1.filter Action.isSetter = [] := rfl
      have h4 : (if (verify c).2 = true then [] else successTail).filter Action.isSetter = [] := by
        split <;> rfl
      rw [h3, h4]; rfl
  · intro i v hi
    have := hnone i _ hi rfl
    rw [hval] at this
    simp at this
  · intro i p hi
    have := hnone i _ hi rfl
    rw [hval] at this
    simp at this

/-- A call satisfying `p` that occurs after a prefix free of `p` splits the list after that
prefix. -/
theorem split_behind {p : Action → Bool} {P S l1 l2 : List Action} {g : Action}
    (hP : ∀ x ∈ P, p x = false) (hg : p g = true) (h : P ++ S = l1 ++ g :: l2) :
    ∃ mid, l1 = P ++ mid ∧ S = mid ++ g :: l2 := by
  rcases List.append_eq_append_iff.mp h with ⟨mid, h1, h2⟩ | ⟨mid, h1, h2⟩
  · exact ⟨mid, h1, h2⟩
  · cases mid with
    | nil =>
      refine ⟨[], ?_, ?_⟩
      · simpa using h1.symm
      · simpa using h2.symm
    | cons x xs =>
      exfalso
      simp only [List.cons_append, List.cons.injEq] at h2
      have hx : x ∈ P := by rw [h1]; simp
      have := hP x hx
      rw [← h2.1, hg] at this
      exact Bool.noConfusion this

/-- C8. When `begin` succeeds, the calls after the last setter are `write`, a 50 ms sleep,
`softReset`, a 750 ms sleep and then the first getter (no getter comes earlier, no setter
later). Hence every getter call has a `softReset` before it with at least 750 ms slept in
between, every `softReset` has a `write` before it with at least 50 ms slept in between, and
every `write` has all fifteen setter calls before it. -/
theorem commit_discipline (polls : Nat) (c : Profile) :
    (∃ before after : List Action,
      (main ⟨some polls, true, c⟩).actions =
        before ++ configure ++
          [.write, .sleep_ms 50, .softReset, .sleep_ms 750, .getPdoNumber c.pdoNum] ++ after ∧
      (before ++ configure).filter Action.isGetter = [] ∧
      after.filter Action.isSetter = []) ∧
    (configure.length = 15 ∧ ∀ a ∈ configure, a.isSetter = true) ∧
    (∀ (l1 l2 : List Action) (g : Action),
      (main ⟨some polls, true, c⟩).actions = l1 ++ g :: l2 → g.isGetter = true →
      ∃ m1 m2, l1 = m1 ++ .softReset :: m2 ∧ 750 ≤ totalDelay m2) ∧
    (∀ l1 l2 : List Action,
      (main ⟨some polls, true, c⟩).actions = l1 ++ .softReset :: l2 →
      ∃ m1 m2, l1 = m1 ++ .write :: m2 ∧ 50 ≤ totalDelay m2) ∧
    (∀ l1 l2 : List Action,
      (main ⟨some polls, true, c⟩).actions = l1 ++ .write :: l2 →
      ∃ m1 m2, l1 = m1 ++ configure ++ m2) := by
  have hact := main_actions polls c
  have hcfgG : configure.filter Action.isGetter = [] := rfl
  have htailS : (if (verify c).2 = true then [] else successTail).filter Action.isSetter = [] := by
    split <;> rfl
  have hpre : ∀ (q : Action → Bool), (∀ a, a.isDriverCall = false → q a = false) →
      q (.begin STUSB4500_I2C_ADDR true) = false →
      ∀ x ∈ bringUp polls ++ [.begin STUSB4500_I2C_ADDR true], q x = false := by
    intro q hq hb x hx
    simp only [List.mem_append, List.mem_singleton] at hx
    rcases hx with hx | rfl
    · exact hq x (bringUp_plain polls x hx).1
    · exact hb
  refine ⟨?_, ⟨rfl, ?_⟩, ?_, ?_, ?_⟩
  · refine ⟨bringUp polls ++ [.begin STUSB4500_I2C_ADDR true],
      [.getVoltage 2 c.pdo2Voltage, .getCurrent 2 c.pdo2Current,
       .getVoltage 3 c.pdo3Voltage, .getCurrent 3 c.pdo3Current]
        ++ (if (verify c).2 = true then [] else successTail), ?_, ?_, ?_⟩
    · rw [hact, verify_fst]; simp [commit]
    · simp only [List.filter_append, bringUp_filter_isGetter, hcfgG]; rfl
    · rw [List.filter_append, htailS]; rfl
  · intro a ha
    have : configure.all Action.isSetter = true := rfl
    exact List.all_eq_true.mp this a ha
  · intro l1 l2 g h hg
    have hsplit : (main ⟨some polls, true, c⟩).actions =
        (bringUp polls ++ [.begin STUSB4500_I2C_ADDR true] ++ configure ++
          [.write, .sleep_ms 50, .softReset, .sleep_ms 750]) ++
        ((verify c).1 ++ (if (verify c).2 = true then [] else successTail)) := by
      rw [hact]; simp [commit]
    rw [hsplit] at h
    have hfree : ∀ x ∈ bringUp polls ++ [.begin STUSB4500_I2C_ADDR true] ++ configure ++
        [.write, .sleep_ms 50, .softReset, .sleep_ms 750], x.isGetter = false := by
      intro x hx
      rw [List.append_assoc, List.mem_append] at hx
      rcases hx with hx | hx
      · exact hpre Action.isGetter
          (fun a ha => by
            simp only [Action.isDriverCall, Bool.or_eq_false_iff] at ha; exact ha.1.1.2)
          rfl x hx
      · have : (configure ++ [Action.write, .sleep_ms 50, .softReset, .sleep_ms 750]).all
            (fun a => !a.isGetter) = true := rfl
        simpa using List.all_eq_true.mp this x hx
    obtain ⟨mid, h1, _⟩ := split_behind hfree hg h
    refine ⟨bringUp polls ++ [.begin STUSB4500_I2C_ADDR true] ++ configure ++
      [.write, .sleep_ms 50], .sleep_ms 750 :: mid, ?_, ?_⟩
    · rw [h1]; simp
    · simp [totalDelay, Action.delay]
  · intro l1 l2 h
    have hsplit : (main ⟨some polls, true, c⟩).actions =
        (bringUp polls ++ [.begin STUSB4500_I2C_ADDR true] ++ configure ++
          [.write, .sleep_ms 50]) ++
        ([.softReset, .sleep_ms 750] ++ (verify c).1
          ++ (if (verify c).2 = true then [] else successTail)) := by
      rw [hact]; simp [commit]
    rw [hsplit] at h
    have hfree : ∀ x ∈ bringUp polls ++ [.begin STUSB4500_I2C_ADDR true] ++ configure ++
        [.write, .sleep_ms 50], (x == Action.softReset) = false := by
      intro x hx
      rw [List.append_assoc, List.mem_append] at hx
      rcases hx with hx | hx
      · exact hpre (fun a => a == Action.softReset)
          (fun a ha => by
            simp only [Action.isDriverCall, Bool.or_eq_false_iff] at ha; exact ha.2)
          rfl x hx
      · have : (configure ++ [Action.write, .sleep_ms 50]).all
            (fun a => !(a == Action.softReset)) = true := by decide
        simpa using List.all_eq_true.mp this x hx
    obtain ⟨mid, h1, _⟩ := split_behind (p := fun a => a == Action.softReset) hfree
      (by simp) h
    refine ⟨bringUp polls ++ [.begin STUSB4500_I2C_ADDR true] ++ configure,
      .sleep_ms 50 :: mid, ?_, ?_⟩
    · rw [h1]; simp
    · simp [totalDelay, Action.delay]
  · intro l1 l2 h
    have hsplit : (main ⟨some polls, true, c⟩).actions =
        (bringUp polls ++ [.begin STUSB4500_I2C_ADDR true] ++ configure) ++
        ([.write, .sleep_ms 50, .softReset, .sleep_ms 750] ++ (verify c).1
          ++ (if (verify c).2 = true then [] else successTail)) := by
      rw [hact]; simp [commit]
    rw [hsplit] at h
    have hfree : ∀ x ∈ bringUp polls ++ [.begin STUSB4500_I2C_ADDR true] ++ configure,
        (x == Action.write) = false := by
      intro x hx
      rw [List.mem_append] at hx
      rcases hx with hx | hx
      · exact hpre (fun a => a == Action.write)
          (fun a ha => by
            simp only [Action.isDriverCall, Bool.or_eq_false_iff] at ha; exact ha.1.2)
          rfl x hx
      · have : configure.all (fun a => !(a == Action.write)) = true := by decide
        simpa using List.all_eq_true.mp this x hx
    obtain ⟨mid, h1, _⟩ := split_behind (p := fun a => a == Action.write) hfree
      (by simp) h
    exact ⟨bringUp polls ++ [.begin STUSB4500_I2C_ADDR true], mid, by rw [h1]⟩

theorem main_halt (polls : Nat) (c : Profile) :
    (main ⟨some polls, true, c⟩).halt = if (verify c).2 = true then .verifyFail else .success := by
  cases h : (verify c).2
  · rw [main_success polls c h]; simp
  · rw [main_verifyFail polls c h]; simp

/-- C9. When `begin` succeeds, the run performs all five read-backs, PDO number, PDO2 voltage,
PDO2 current, PDO3 voltage, PDO3 current, in this order and for every combination of values
read; `verificationFailed` ends true exactly when at least one of the five comparisons
mismatches, and the run ends in the verification-failure loop exactly then. -/
theorem verify_no_short_circuit (polls : Nat) (c : Profile) :
    (main ⟨some polls, true, c⟩).actions.filter Action.isGetter =
      [.getPdoNumber c.pdoNum,
       .getVoltage 2 c.pdo2Voltage, .getCurrent 2 c.pdo2Current,
       .getVoltage 3 c.pdo3Voltage, .getCurrent 3 c.pdo3Current] ∧
    ((verify c).2 = true ↔
      (c.pdoNum ≠ 3 ∨ floatsAreClose c.pdo2Voltage (.fin 20) = false ∨
        floatsAreClose c.pdo2Current (.fin (9 / 2)) = false ∨
        floatsAreClose c.pdo3Voltage (.fin 20) = false ∨
        floatsAreClose c.pdo3Current (.fin 5) = false)) ∧
    ((main ⟨some polls, true, c⟩).halt = .verifyFail ↔ (verify c).2 = true) := by
  refine ⟨?_, ?_, ?_⟩
  · rw [main_actions]
    simp only [List.filter_append, bringUp_filter_isGetter]
    have h1 : configure.filter Action.isGetter = [] := rfl
    have h2 : commit.filter Action.isGetter = [] := rfl
    have h3 : (verify c).1.filter Action.isGetter = (verify c).1 := rfl
    have h4 : (if (verify c).2 = true then [] else successTail).filter Action.isGetter = [] := by
      split <;> rfl
    rw [h1, h2, h3, h4, verify_fst]
    rfl
  · rw [verify_snd, setPdo2Voltage_eq, setPdo2Current_eq, setPdo3Voltage_eq, setPdo3Current_eq]
    rfl
  · rw [main_halt]
    cases (verify c).2 <;> simp

/-- The only call `gpio_put(STATUS_LED_PIN, 1)` outside a blink loop is the one of the
success path. -/
theorem no_led_on_through_verify (polls : Nat) (b : Bool) (c : Profile) :
    Action.gpio_put STATUS_LED_PIN true ∉
      bringUp polls ++ [.begin STUSB4500_I2C_ADDR b] ++ configure ++ commit ++ (verify c).1 := by
  intro ha
  simp only [List.mem_append, List.mem_singleton] at ha
  rcases ha with (((ha | ha) | ha) | ha) | ha
  · simp only [bringUp, List.mem_cons, List.mem_append, List.mem_singleton, List.not_mem_nil,
      or_false] at ha
    rcases ha with (ha | ha) | ha
    · exact Action.noConfusion ha
    · have : ∀ n, Action.gpio_put STATUS_LED_PIN true ∉ waitConnected n := by
        intro n
        induction n with
        | zero => simp [waitConnected]
        | succ n ih => simp [waitConnected, ih]
      exact this polls ha
    · simp at ha
  · exact Action.noConfusion ha
  · have : configure.all (fun a => !(a == Action.gpio_put STATUS_LED_PIN true)) = true := by
      decide
    simpa using List.all_eq_true.mp this _ ha
  · have : commit.all (fun a => !(a == Action.gpio_put STATUS_LED_PIN true)) = true := by decide
    simpa using List.all_eq_true.mp this _ ha
  · rw [verify_fst] at ha
    simp at ha

/-- In a blink loop of four calls starting with LED on, LED off follows two calls later. -/
theorem blink_on_then_off (r : Run) (ms : Nat)
    (hloop : r.forever = [.gpio_put STATUS_LED_PIN true, .sleep_ms ms,
      .gpio_put STATUS_LED_PIN false, .sleep_ms ms])
    (hon : Action.gpio_put STATUS_LED_PIN true ∉ r.actions) (i : Nat)
    (h : r.nth i = some (.gpio_put STATUS_LED_PIN true)) :
    r.nth (i + 2) = some (.gpio_put STATUS_LED_PIN false) := by
  have hi : r.actions.length ≤ i := by
    by_contra hlt
    push_neg at hlt
    unfold Run.nth at h
    rw [if_pos hlt] at h
    exact hon (List.getElem?_mem h)
  obtain ⟨j, rfl⟩ : ∃ j, i = r.actions.length + j := ⟨i - r.actions.length, by omega⟩
  rw [Run.nth_loop, hloop] at h
  rw [Nat.add_assoc, Run.nth_loop, hloop]
  simp only [List.length_cons, List.length_nil] at h ⊢
  have hj : j % 4 < 4 := Nat.mod_lt _ (by norm_num)
  have h4 : (0 + 1 + 1 + 1 + 1) = 4 := rfl
  rw [h4] at h ⊢
  have : j % 4 = 0 := by
    rcases Nat.lt_succ_iff_lt_or_eq.mp hj with h' | h'
    · rcases Nat.lt_succ_iff_lt_or_eq.mp h' with h'' | h''
      · rcases Nat.lt_succ_iff_lt_or_eq.mp h'' with h3 | h3
        · omega
        · rw [h3] at h; simp at h
      · rw [h''] at h; simp at h
    · rw [h'] at h; simp at h
  have h2 : (j + 2) % 4 = 2 := by omega
  rw [h2]; rfl

/-- C10, as amended. Every run in which the USB console connects ends in exactly one of three
ways: in the init-failure loop exactly when `usb.begin` returns false, in the
verification-failure loop exactly when `begin` succeeds and `verificationFailed` is true, in
success exactly when `begin` succeeds and `verificationFailed` is false. The restart is called
only in a successful run; there the last calls are LED on, `sleep_ms(10000)`, `sleep_ms(100)`
and `watchdog_reboot(0, 0, 0)`, so 10100 ms are slept between LED on and the restart, and
nothing follows. In a failed run every LED on is followed by LED off two calls later. -/
theorem outcome_exclusive (polls : Nat) (b : Bool) (c : Profile) :
    ((main ⟨some polls, b, c⟩).halt = .initFail ↔ b = false) ∧
    ((main ⟨some polls, b, c⟩).halt = .verifyFail ↔ b = true ∧ (verify c).2 = true) ∧
    ((main ⟨some polls, b, c⟩).halt = .success ↔ b = true ∧ (verify c).2 = false) ∧
    ((∃ (i : Nat) (a : Action), (main ⟨some polls, b, c⟩).nth i = some a ∧ a.isReboot = true) →
      (main ⟨some polls, b, c⟩).halt = .success) ∧
    ((main ⟨some polls, b, c⟩).halt = .success →
      ∃ before : List Action,
        (main ⟨some polls, b, c⟩).actions =
          before ++ [.gpio_put STATUS_LED_PIN true, .sleep_ms 10000, .sleep_ms 100,
            .watchdog_reboot 0 0 0] ∧
        (∀ a ∈ before, a.isReboot = false ∧ a ≠ .gpio_put STATUS_LED_PIN true) ∧
        totalDelay [Action.sleep_ms 10000, Action.sleep_ms 100] = 10100 ∧
        (main ⟨some polls, b, c⟩).forever = []) ∧
    ((main ⟨some polls, b, c⟩).halt ≠ .success →
      ∀ i : Nat, (main ⟨some polls, b, c⟩).nth i = some (.gpio_put STATUS_LED_PIN true) →
        (main ⟨some polls, b, c⟩).nth (i + 2) = some (.gpio_put STATUS_LED_PIN false)) := by
  cases b with
  | false =>
    rw [main_initFail]
    refine ⟨by simp, by simp, by simp, ?_, by simp, ?_⟩
    · rintro ⟨i, a, hi, hr⟩
      exfalso
      rcases Run.mem_of_nth hi with ha | ha
      · simp only [List.mem_append, List.mem_singleton] at ha
        rcases ha with ha | rfl
        · rw [(bringUp_plain polls a ha).2] at hr; exact Bool.noConfusion hr
        · exact Bool.noConfusion hr
      · simp only [enterErrorState_InitFail, List.mem_cons, List.not_mem_nil, or_false] at ha
        rcases ha with rfl | rfl | rfl | rfl <;> exact Bool.noConfusion hr
    · intro _ i hi
      refine blink_on_then_off _ 100 rfl ?_ i hi
      intro ha
      simp only [List.mem_append, List.mem_singleton] at ha
      rcases ha with ha | ha
      · exact no_led_on_through_verify polls false c (by simp [ha])
      · exact Action.noConfusion ha
  | true =>
    cases h : (verify c).2 with
    | true =>
      rw [main_verifyFail polls c h]
      refine ⟨by simp, by simp, by simp, ?_, by simp, ?_⟩
      · rintro ⟨i, a, hi, hr⟩
        exfalso
        rcases Run.mem_of_nth hi with ha | ha
        · rw [no_reboot_through_verify polls true c a ha] at hr; exact Bool.noConfusion hr
        · simp only [enterErrorState_VerifyFail, List.mem_cons, List.not_mem_nil, or_false] at ha
          rcases ha with rfl | rfl | rfl | rfl <;> exact Bool.noConfusion hr
      · intro _ i hi
        exact blink_on_then_off _ 1000 rfl (no_led_on_through_verify polls true c) i hi
    | false =>
      rw [main_success polls c h]
      refine ⟨by simp, by simp, by simp, by simp, ?_, by simp⟩
      intro _
      refine ⟨bringUp polls ++ [.begin STUSB4500_I2C_ADDR true] ++ configure ++ commit
        ++ (verify c).1, rfl, ?_, rfl, rfl⟩
      intro a ha
      refine ⟨no_reboot_through_verify polls true c a ha, ?_⟩
      rintro rfl
      exact no_led_on_through_verify polls true c ha

/-- C10 as stated fails. A run in which no host opens the USB console stays in the wait loop at
the top of `main`: it ends in none of the three outcomes and never calls `usb.begin`. And in a
successful run 10100 ms, not 10000 ms, are slept between LED on and the restart. -/
theorem outcome_counterexample :
    (main ⟨none, true, desired⟩).halt ≠ .initFail ∧
    (main ⟨none, true, desired⟩).halt ≠ .verifyFail ∧
    (main ⟨none, true, desired⟩).halt ≠ .success ∧
    (main ⟨none, true, desired⟩).actions = [.stdio_init_all] ∧
    (main ⟨none, true, desired⟩).forever = [.stdio_usb_connected false, .sleep_ms 100] ∧
    (main ⟨some 0, true, desired⟩).halt = .success ∧
    (∃ before : List Action,
      (main ⟨some 0, true, desired⟩).actions =
        before ++ [.gpio_put STATUS_LED_PIN true, .sleep_ms 10000, .sleep_ms 100,
          .watchdog_reboot 0 0 0]) ∧
    totalDelay [Action.sleep_ms 10000, Action.sleep_ms 100] ≠ 10000 := by
  rw [main_waiting, main_success 0 desired verify_desired]
  refine ⟨by simp, by simp, by simp, rfl, rfl, rfl, ⟨_, rfl⟩, by decide⟩

end PDUProgrammer
